import Mathlib

/-!
# Verification of the yapsearch stream/repair pipeline

Shallow embedding of the two source files of the repository:

* `src/template-2/src/app/api/chat/route.ts` — the relay: `ensureProperMarkdown`
  (a fixed sequence of JavaScript regex replacements) and the per-line SSE
  stream transform in `POST`.
* `src/template-2/src/app/page.tsx` — the client: `handleSubmit` with its
  search step, context composition, stream read loop, inline Markdown
  formatting rules and section-state updates.

JavaScript regexes are embedded by a small backtracking matcher over an
explicit syntax tree (`RX`), with JS `String.prototype.replace` global/multiline
semantics reproduced by `applyRule`.  Strings are modelled as Lean `String`
(sequences of characters; JS UTF-16 code-unit indexing coincides with this on
the ASCII data exercised here).  React state updates are modelled as
synchronous record updates, and the async pipeline of one query as a task that
advances one await-resumption per step (`stepTask`).
-/

/-- JS `\s` character class (the whitespace set used by `trim` as well):
space, tab, LF, VT, FF, CR, NBSP, BOM, and the Unicode space separators. -/
def isSpaceJS (c : Char) : Bool :=
  c == ' ' || c == '\t' || c == '\n' || c == '\r' ||
  c == '\x0b' || c == '\x0c' || c == Char.ofNat 0xa0 || c == Char.ofNat 0xfeff ||
  c == Char.ofNat 0x1680 || (Char.ofNat 0x2000 ≤ c && c ≤ Char.ofNat 0x200a) ||
  c == Char.ofNat 0x2028 || c == Char.ofNat 0x2029 || c == Char.ofNat 0x202f ||
  c == Char.ofNat 0x205f || c == Char.ofNat 0x3000

/-- JS `\w` character class. -/
def isWordJS (c : Char) : Bool :=
  ('a' ≤ c && c ≤ 'z') || ('A' ≤ c && c ≤ 'Z') || c.isDigit || c == '_'

/-- JS `.` (without the `s` flag): any char except line terminators. -/
def isDotJS (c : Char) : Bool :=
  c != '\n' && c != '\r' && c != Char.ofNat 0x2028 && c != Char.ofNat 0x2029

/-- Syntax of the (tiny) regex fragment used by the source's rules.
`bos`/`eos` are the non-multiline `^`/`$`; multiline `^` anchoring is handled
outside the matcher (rules tagged `anchored` are only attempted at line
starts). -/
inductive RX where
  | eps
  | cls (p : Char → Bool)
  | cat (a b : RX)
  | alt (a b : RX)
  | star (a : RX)
  | grp (n : Nat) (a : RX)
  | look (a : RX)
  | nlook (a : RX)
  | bos
  | eos

def rxSize : RX → Nat
  | .eps => 1
  | .cls _ => 1
  | .cat a b => rxSize a + rxSize b + 1
  | .alt a b => rxSize a + rxSize b + 1
  | .star a => rxSize a + 1
  | .grp _ a => rxSize a + 1
  | .look a => rxSize a + 1
  | .nlook a => rxSize a + 1
  | .bos => 1
  | .eos => 1

/-- Capture-group environment: most recent assignment first. -/
def Caps := List (Nat × List Char)

def capSet (n : Nat) (v : List Char) (cs : Caps) : Caps := (n, v) :: cs

def capGet (n : Nat) (cs : Caps) : List Char :=
  ((cs.find? (fun p => p.1 == n)).map (fun p => p.2)).getD []

/-- Backtracking matcher in continuation-passing style, with greedy `star`
(longest first, as in JS).  The `Bool` flag is true while no character has
been consumed and the match attempt started at the beginning of the whole
string (for `bos`).  Fuel strictly decreases on every recursive call; callers
supply enough fuel (see `mtchRun`) for it never to run out. -/
def mtch : Nat → RX → Bool → List Char → Caps →
    (Bool → List Char → Caps → Option (List Char × Caps)) → Option (List Char × Caps)
  | 0, _, _, _, _, _ => none
  | f + 1, r, b, s, cs, k =>
    match r with
    | .eps => k b s cs
    | .bos => if b then k b s cs else none
    | .eos => match s with | [] => k b s cs | _ => none
    | .cls p =>
      match s with
      | [] => none
      | c :: rest => if p c then k false rest cs else none
    | .cat a a2 => mtch f a b s cs (fun b2 s2 cs2 => mtch f a2 b2 s2 cs2 k)
    | .alt a a2 =>
      match mtch f a b s cs k with
      | some r2 => some r2
      | none => mtch f a2 b s cs k
    | .star a =>
      match mtch f a b s cs
          (fun b2 s2 cs2 =>
            if s2.length < s.length then mtch f (.star a) b2 s2 cs2 k else none) with
      | some r2 => some r2
      | none => k b s cs
    | .grp n a =>
      mtch f a b s cs
        (fun b2 s2 cs2 => k b2 s2 (capSet n (s.take (s.length - s2.length)) cs2))
    | .look a =>
      match mtch f a b s cs (fun _ s2 cs2 => some (s2, cs2)) with
      | some (_, cs2) => k b s cs2
      | none => none
    | .nlook a =>
      match mtch f a b s cs (fun _ s2 cs2 => some (s2, cs2)) with
      | some _ => none
      | none => k b s cs

/-- Attempt a match of `r` at the start of `s`; returns the number of
characters consumed and the captures.  `first` is true iff this position is
the start of the whole subject string. -/
def mtchRun (r : RX) (first : Bool) (s : List Char) : Option (Nat × Caps) :=
  match mtch ((rxSize r + 1) * (s.length + 2)) r first s [] (fun _ rest cs => some (rest, cs)) with
  | some (rest, cs) => some (s.length - rest.length, cs)
  | none => none

/-- Items of a JS replacement template (`$n` references and literal text). -/
inductive TItem where
  | lit (s : String)
  | ref (n : Nat)

def buildRepl (cs : Caps) : List TItem → List Char
  | [] => []
  | .lit s :: rest => s.data ++ buildRepl cs rest
  | .ref n :: rest => capGet n cs ++ buildRepl cs rest

/-- One `replace(/…/g…, '…')` call: the regex, whether its pattern is
anchored with a multiline `^`, and the replacement template. -/
structure RRule where
  anchored : Bool
  re : RX
  tmpl : List TItem

def lastIsNL (l : List Char) : Bool :=
  match l.getLast? with
  | some c => c == '\n'
  | none => false

/-- Global replacement scan, mirroring JS `g` (+ optional `m`) semantics:
try the pattern at each position (only at line starts when `anchored`),
resume after the consumed text of a successful match, and track line starts
from the original string. -/
def replGo : Nat → RRule → Bool → Bool → List Char → List Char
  | 0, _, _, _, s => s
  | f + 1, ru, first, ls, s =>
    match s with
    | [] => []
    | c :: rest =>
      if !ru.anchored || ls then
        match mtchRun ru.re first s with
        | some (n, cs) =>
          if n == 0 then
            c :: replGo f ru false (c == '\n') rest
          else
            buildRepl cs ru.tmpl ++ replGo f ru false (lastIsNL (s.take n)) (s.drop n)
        | none => c :: replGo f ru false (c == '\n') rest
      else c :: replGo f ru false (c == '\n') rest

def applyRule (s : String) (ru : RRule) : String :=
  ⟨replGo (s.data.length + 1) ru true true s.data⟩

def applyRules (rules : List RRule) (s : String) : String :=
  rules.foldl applyRule s

/-! Combinators for writing the source's regexes. -/

def rxChr (c : Char) : RX := .cls (fun d => d == c)

def rxNotChr (c : Char) : RX := .cls (fun d => d != c)

def rxLit (s : String) : RX :=
  s.data.foldr (fun c acc => .cat (rxChr c) acc) .eps

def rxIn (l : List Char) : RX := .cls (fun d => l.contains d)

def rxPlus (a : RX) : RX := .cat a (.star a)

def rxOpt (a : RX) : RX := .alt a .eps

/-- Greedy repetition `a\x7b1,6\x7d`. -/
def rxRep1to6 (a : RX) : RX :=
  .cat a (rxOpt (.cat a (rxOpt (.cat a (rxOpt (.cat a (rxOpt (.cat a (rxOpt a)))))))))

def rxWS : RX := .cls isSpaceJS

def rxDigit : RX := .cls Char.isDigit

def rxHash : RX := rxChr '#'

/-- List bullet markers `[*\-+]`. -/
def markChars : List Char := ['*', '-', '+']

/-! ## The repair rules

Transcribed one-to-one, in order, from `ensureProperMarkdown`
(route.ts lines 23–59) and the inline client copy (page.tsx lines 263–300). -/

/-- Rule `/^(#\x7b1,6\x7d)([^#\s])/gm` with replacement `'$1 $2'`. -/
def ruleHeadSpace : RRule :=
  ⟨true,
   .cat (.grp 1 (rxRep1to6 rxHash)) (.grp 2 (.cls (fun c => c != '#' && !isSpaceJS c))),
   [.ref 1, .lit " ", .ref 2]⟩

/-- Rule `/^(#\x7b1,6\x7d)\s+([^#])/gm` with replacement `'$1 $2'`. -/
def ruleHeadSpacing : RRule :=
  ⟨true,
   .cat (.grp 1 (rxRep1to6 rxHash)) (.cat (rxPlus rxWS) (.grp 2 (rxNotChr '#'))),
   [.ref 1, .lit " ", .ref 2]⟩

/-- Rule `/^#\x7b7,\x7d/gm` with replacement `'###### '`. -/
def ruleHeadExcess : RRule :=
  ⟨true,
   .cat rxHash (.cat rxHash (.cat rxHash (.cat rxHash (.cat rxHash (.cat rxHash
     (.cat rxHash (.star rxHash))))))),
   [.lit "###### "]⟩

/-- Rule `/^(\s*)([*\-+])([^\s])/gm` with replacement `'$1$2 $3'`. -/
def ruleListSpace : RRule :=
  ⟨true,
   .cat (.grp 1 (.star rxWS))
     (.cat (.grp 2 (rxIn markChars)) (.grp 3 (.cls (fun c => !isSpaceJS c)))),
   [.ref 1, .ref 2, .lit " ", .ref 3]⟩

/-- Rule `/^(\s*\d+\.)([^\s])/gm` with replacement `'$1 $2'`. -/
def ruleNumListSpace : RRule :=
  ⟨true,
   .cat (.grp 1 (.cat (.star rxWS) (.cat (rxPlus rxDigit) (rxChr '.'))))
     (.grp 2 (.cls (fun c => !isSpaceJS c))),
   [.ref 1, .lit " ", .ref 2]⟩

/-- Rule `/\*\x7b3,\x7d/g` with replacement `'**'`. -/
def ruleStars : RRule :=
  ⟨false, .cat (rxChr '*') (.cat (rxChr '*') (rxPlus (rxChr '*'))), [.lit "**"]⟩

/-- Rule `/Source\d+[:#\-*]+/g` with replacement `'\n**Source:** '`. -/
def ruleSourceMarker : RRule :=
  ⟨false,
   .cat (rxLit "Source") (.cat (rxPlus rxDigit) (rxPlus (rxIn [':', '#', '-', '*']))),
   [.lit "\n**Source:** "]⟩

/-- Rule `/\|\s*-+\s*\|/g` with replacement `'| --- |'`. -/
def ruleTableSep : RRule :=
  ⟨false,
   .cat (rxChr '|') (.cat (.star rxWS) (.cat (rxPlus (rxChr '-')) (.cat (.star rxWS) (rxChr '|')))),
   [.lit "| --- |"]⟩

/-- A letter matched case-insensitively (the `i` flag). -/
def rxCI (c : Char) : RX := .cls (fun d => d == c.toLower || d == c.toUpper)

/-- Rule `/Alt[..]?\s+(?=[a-z])/gi` with empty replacement (the class holds the two curly quotes
U+2018 and U+2019; with `i`, `[a-z]` also matches uppercase). -/
def ruleAltMarker : RRule :=
  ⟨false,
   .cat (rxCI 'A') (.cat (rxCI 'l') (.cat (rxCI 't')
     (.cat (rxOpt (rxIn [Char.ofNat 0x2018, Char.ofNat 0x2019]))
       (.cat (rxPlus rxWS)
         (.look (.cls (fun c => ('a' ≤ c && c ≤ 'z') || ('A' ≤ c && c ≤ 'Z')))))))),
   [.lit ""]⟩

/-- Rule matching a backtick between two non-backticks, replacement `'$1 $2'`. -/
def ruleBacktickPair : RRule :=
  ⟨false,
   .cat (.grp 1 (rxNotChr '`')) (.cat (rxChr '`') (.grp 2 (rxNotChr '`'))),
   [.ref 1, .lit " ", .ref 2]⟩

/-- Rule `/(\n#\x7b1,6\x7d[^\n]+)\n(?=[^\n])/g` with replacement `'$1\n\n'`. -/
def ruleHeadBlank : RRule :=
  ⟨false,
   .cat (.grp 1 (.cat (rxChr '\n') (.cat (rxRep1to6 rxHash) (rxPlus (rxNotChr '\n')))))
     (.cat (rxChr '\n') (.look (rxNotChr '\n'))),
   [.ref 1, .lit "\n\n"]⟩

/-- Rule `/^(\s*[*\-+]\s+[^\n]+)(\n)(?=[^*\-+\s\n])/gm` with replacement `'$1\n\n'`. -/
def ruleListBlank : RRule :=
  ⟨true,
   .cat (.grp 1 (.cat (.star rxWS) (.cat (rxIn markChars)
       (.cat (rxPlus rxWS) (rxPlus (rxNotChr '\n'))))))
     (.cat (.grp 2 (rxChr '\n'))
       (.look (.cls (fun c => !markChars.contains c && !isSpaceJS c && c != '\n')))),
   [.ref 1, .lit "\n\n"]⟩

/-- Rule `/^(\s*)\d+\.\s*(.+)(\n+)(\s*)[*\-+]\s+/gm` with replacement `'$1$2$3$41. '`. -/
def ruleNumToBullet : RRule :=
  ⟨true,
   .cat (.grp 1 (.star rxWS))
     (.cat (rxPlus rxDigit) (.cat (rxChr '.') (.cat (.star rxWS)
       (.cat (.grp 2 (rxPlus (.cls isDotJS)))
         (.cat (.grp 3 (rxPlus (rxChr '\n')))
           (.cat (.grp 4 (.star rxWS)) (.cat (rxIn markChars) (rxPlus rxWS)))))))),
   [.ref 1, .ref 2, .ref 3, .ref 4, .lit "1. "]⟩

/-- Rule matching three backticks, `(\w+)` and a negative lookahead for a newline, replacement appending a newline (client only, page.tsx line 293). -/
def ruleCodeOpen : RRule :=
  ⟨false,
   .cat (rxLit "```") (.cat (.grp 1 (rxPlus (.cls isWordJS))) (.nlook (rxChr '\n'))),
   [.lit "```", .ref 1, .lit "\n"]⟩

/-- Rule `/([^\n])(three backticks)(\s*)$/g` with replacement inserting a newline before the backticks (client only, page.tsx line 294;
`$` without the `m` flag: end of the whole string). -/
def ruleCodeClose : RRule :=
  ⟨false,
   .cat (.grp 1 (rxNotChr '\n')) (.cat (rxLit "```") (.cat (.grp 2 (.star rxWS)) .eos)),
   [.ref 1, .lit "\n```", .ref 2]⟩

/-- Rule `/(^|\n)#+\s+and\S*/g` with replacement `'$1## Additional Information'` (client only,
page.tsx line 300; `^` without `m`: start of the whole string). -/
def ruleHashAnd : RRule :=
  ⟨false,
   .cat (.grp 1 (.alt .bos (rxChr '\n')))
     (.cat (rxPlus rxHash) (.cat (rxPlus rxWS)
       (.cat (rxLit "and") (.star (.cls (fun c => !isSpaceJS c)))))),
   [.ref 1, .lit "## Additional Information"]⟩

/-- The relay's rule sequence, in source order (route.ts lines 23–59). -/
def serverRules : List RRule :=
  [ruleHeadSpace, ruleHeadSpacing, ruleHeadExcess, ruleListSpace, ruleNumListSpace,
   ruleStars, ruleSourceMarker, ruleTableSep, ruleAltMarker, ruleBacktickPair,
   ruleHeadBlank, ruleListBlank, ruleNumToBullet]

/-- The function `ensureProperMarkdown` (route.ts lines 18–62). -/
def ensureProperMarkdown (text : String) : String :=
  applyRules serverRules text

/-- The client's inline rule sequence, in source order (page.tsx lines 263–300). -/
def clientRules : List RRule :=
  [ruleHeadSpace, ruleHeadSpacing, ruleHeadExcess, ruleListSpace, ruleNumListSpace,
   ruleStars, ruleSourceMarker, ruleTableSep, ruleAltMarker, ruleListBlank,
   ruleCodeOpen, ruleCodeClose, ruleHeadBlank, ruleHashAnd]

/-! ## JS string helpers -/

/-- JS `String.prototype.trim`. -/
def jsTrim (s : String) : String :=
  ⟨(s.data.dropWhile isSpaceJS).reverse.dropWhile isSpaceJS |>.reverse⟩

/-- Is `pat` a prefix of `s` (on characters)? -/
def isPrefixL : List Char → List Char → Bool
  | [], _ => true
  | _ :: _, [] => false
  | p :: ps, c :: cs => p == c && isPrefixL ps cs

/-- Smallest index `≥ start` at which `pat` occurs in `s`, else `-1`
(JS `indexOf`). -/
def jsIndexOfFrom (s pat : String) (start : Nat) : Int :=
  let rec go : Nat → List Char → Int
    | i, l =>
      if isPrefixL pat.data l then (i : Int)
      else
        match l with
        | [] => -1
        | _ :: rest => go (i + 1) rest
  go start (s.data.drop start)

def jsIndexOf (s pat : String) : Int := jsIndexOfFrom s pat 0

/-- JS `includes`. -/
def jsIncludes (s pat : String) : Bool := jsIndexOf s pat ≥ 0

/-- Largest index at which `pat` occurs in `s`, else `-1` (JS `lastIndexOf`). -/
def jsLastIndexOf (s pat : String) : Int :=
  let rec go : Nat → List Char → Int → Int
    | i, l, best =>
      let best2 := if isPrefixL pat.data l then (i : Int) else best
      match l with
      | [] => best2
      | _ :: rest => go (i + 1) rest best2
  go 0 s.data (-1)

/-- JS `substring(i)` (character index, non-negative). -/
def jsSubstringFrom (s : String) (i : Nat) : String := ⟨s.data.drop i⟩

/-- JS `substring(0, i)`. -/
def jsSubstringTo (s : String) (i : Nat) : String := ⟨s.data.take i⟩

/-- JS `slice(0, n)` on a string (data is ASCII in all uses, so characters
and UTF-16 code units coincide). -/
def jsSlice (s : String) (n : Nat) : String := ⟨s.data.take n⟩

/-! ## JSON values, `JSON.parse` and `JSON.stringify`

Numbers keep their source lexeme (none of the data exercised by the claims
carries a number, so `JSON.stringify`'s numeric normalisation is not
modelled). -/

mutual
inductive Json where
  | null
  | bool (b : Bool)
  | num (lex : String)
  | str (s : String)
  | arr (elems : JsonArr)
  | obj (fields : JsonObj)

inductive JsonArr where
  | nil
  | cons (head : Json) (tail : JsonArr)

inductive JsonObj where
  | nil
  | cons (key : String) (val : Json) (tail : JsonObj)
end

def JsonArr.ofList : List Json → JsonArr
  | [] => .nil
  | j :: rest => .cons j (JsonArr.ofList rest)

def JsonArr.toList : JsonArr → List Json
  | .nil => []
  | .cons j rest => j :: rest.toList

def JsonObj.ofList : List (String × Json) → JsonObj
  | [] => .nil
  | (k, v) :: rest => .cons k v (JsonObj.ofList rest)

/-- Build an array value from a list. -/
def Json.arrL (l : List Json) : Json := .arr (JsonArr.ofList l)

/-- Build an object value from a field list. -/
def Json.objL (l : List (String × Json)) : Json := .obj (JsonObj.ofList l)

/-- Insert a key/value into an object's field list the way JS assigns
properties: a duplicate key overwrites in place, a new key appends. -/
def insertKV : JsonObj → String → Json → JsonObj
  | .nil, k, v => .cons k v .nil
  | .cons k2 v2 rest, k, v =>
    if k2 == k then .cons k v rest else .cons k2 v2 (insertKV rest k v)

/-- JSON insignificant whitespace. -/
def isJsonWS (c : Char) : Bool :=
  c == ' ' || c == '\t' || c == '\n' || c == '\r'

def skipWS (l : List Char) : List Char := l.dropWhile isJsonWS

/-- Value of one hex digit of a `\uXXXX` escape (digits, lowercase and
uppercase letters by code point). -/
def hexVal (c : Char) : Option Nat :=
  let n := c.toNat
  if 48 ≤ n && n ≤ 57 then some (n - 48)
  else if 97 ≤ n && n ≤ 102 then some (n - 87)
  else if 65 ≤ n && n ≤ 70 then some (n - 55)
  else none

/-- Duplicate keys resolved as JS does: position of the first occurrence,
value of the last. -/
def dedupFields (fs : List (String × Json)) : JsonObj :=
  fs.foldl (fun acc p => insertKV acc p.1 p.2) .nil

/-- Body of a JSON string literal, after the opening quote.  Fuel bounds the
remaining length. -/
def parseStrBody : Nat → List Char → Option (List Char × List Char)
  | 0, _ => none
  | _ + 1, [] => none
  | _ + 1, '"' :: rest => some ([], rest)
  | f + 1, '\\' :: e :: rest =>
    let esc : Option (Char × List Char) :=
      match e with
      | '"' => some ('"', rest)
      | '\\' => some ('\\', rest)
      | '/' => some ('/', rest)
      | 'b' => some ('\x08', rest)
      | 'f' => some ('\x0c', rest)
      | 'n' => some ('\n', rest)
      | 'r' => some ('\r', rest)
      | 't' => some ('\t', rest)
      | 'u' =>
        match rest with
        | h1 :: h2 :: h3 :: h4 :: rest2 =>
          match hexVal h1, hexVal h2, hexVal h3, hexVal h4 with
          | some a, some b, some c, some d =>
            some (Char.ofNat (((a * 16 + b) * 16 + c) * 16 + d), rest2)
          | _, _, _, _ => none
        | _ => none
      | _ => none
    match esc with
    | some (c, rest2) =>
      match parseStrBody f rest2 with
      | some (cs, rest3) => some (c :: cs, rest3)
      | none => none
    | none => none
  | f + 1, c :: rest =>
    if c.toNat < 0x20 then none
    else
      match parseStrBody f rest with
      | some (cs, rest2) => some (c :: cs, rest2)
      | none => none

/-- Lexeme of a JSON number (grammar as in the JSON spec). -/
def parseNumLex (l : List Char) : Option (List Char × List Char) :=
  let (sign, l1) := match l with | '-' :: r => (['-'], r) | _ => ([], l)
  let intPart : Option (List Char × List Char) :=
    match l1 with
    | '0' :: r => some (['0'], r)
    | c :: _ =>
      if '1' ≤ c && c ≤ '9' then
        let ds := l1.takeWhile Char.isDigit
        some (ds, l1.drop ds.length)
      else none
    | [] => none
  match intPart with
  | none => none
  | some (ip, l2) =>
    let (fp, l3) :=
      match l2 with
      | '.' :: r =>
        let ds := r.takeWhile Char.isDigit
        if ds.isEmpty then ([], l2) else ('.' :: ds, r.drop ds.length)
      | _ => ([], l2)
    if l2 ≠ l3 || (match l2 with | '.' :: _ => false | _ => true) then
      let (ep, l4) :=
        match l3 with
        | e :: r =>
          if e == 'e' || e == 'E' then
            let (es, r2) := match r with
              | s :: r2 => if s == '+' || s == '-' then ([s], r2) else ([], r)
              | [] => ([], r)
            let ds := r2.takeWhile Char.isDigit
            if ds.isEmpty then ([], l3) else (e :: (es ++ ds), r2.drop ds.length)
          else ([], l3)
        | [] => ([], l3)
      some (sign ++ ip ++ fp ++ ep, l4)
    else none

mutual
/-- Recursive-descent `JSON.parse` (value position, leading whitespace
already skipped).  Fuel bounds nesting depth. -/
def parseVal : Nat → List Char → Option (Json × List Char)
  | 0, _ => none
  | _ + 1, 'n' :: 'u' :: 'l' :: 'l' :: rest => some (.null, rest)
  | _ + 1, 't' :: 'r' :: 'u' :: 'e' :: rest => some (.bool true, rest)
  | _ + 1, 'f' :: 'a' :: 'l' :: 's' :: 'e' :: rest => some (.bool false, rest)
  | _ + 1, '"' :: rest =>
    match parseStrBody (rest.length + 1) rest with
    | some (cs, rest2) => some (.str ⟨cs⟩, rest2)
    | none => none
  | f + 1, '[' :: rest =>
    (match skipWS rest with
     | ']' :: rest2 => some (.arr .nil, rest2)
     | rest1 =>
       match parseElems f rest1 with
       | some (es, rest2) => some (.arrL es, rest2)
       | none => none)
  | f + 1, '{' :: rest =>
    (match skipWS rest with
     | '}' :: rest2 => some (.obj .nil, rest2)
     | rest1 =>
       match parseFields f rest1 with
       | some (fs, rest2) => some (.obj (dedupFields fs), rest2)
       | none => none)
  | _ + 1, l =>
    match parseNumLex l with
    | some (lex, rest) => some (.num ⟨lex⟩, rest)
    | none => none

/-- Array elements up to and including the closing `]`. -/
def parseElems : Nat → List Char → Option (List Json × List Char)
  | 0, _ => none
  | f + 1, l =>
    match parseVal f (skipWS l) with
    | none => none
    | some (v, rest) =>
      match skipWS rest with
      | ',' :: rest2 =>
        (match parseElems f rest2 with
         | some (es, rest3) => some (v :: es, rest3)
         | none => none)
      | ']' :: rest2 => some ([v], rest2)
      | _ => none

/-- Object members up to and including the closing `}`. -/
def parseFields : Nat → List Char → Option (List (String × Json) × List Char)
  | 0, _ => none
  | f + 1, l =>
    match skipWS l with
    | '"' :: rest =>
      (match parseStrBody (rest.length + 1) rest with
       | none => none
       | some (kcs, rest2) =>
         match skipWS rest2 with
         | ':' :: rest3 =>
           (match parseVal f (skipWS rest3) with
            | none => none
            | some (v, rest4) =>
              match skipWS rest4 with
              | ',' :: rest5 =>
                (match parseFields f rest5 with
                 | some (fs, rest6) => some ((⟨kcs⟩, v) :: fs, rest6)
                 | none => none)
              | '}' :: rest5 => some ([(⟨kcs⟩, v)], rest5)
              | _ => none)
         | _ => none)
    | _ => none
end

/-- Model of `JSON.parse`, returning `none` where JS throws. -/
def jsonParse (s : String) : Option Json :=
  match parseVal (s.data.length + 1) (skipWS s.data) with
  | some (v, rest) => if skipWS rest = [] then some v else none
  | none => none

/-- Escape one character for `JSON.stringify` output. -/
def jsonEscapeChar (c : Char) : List Char :=
  if c == '"' then ['\\', '"']
  else if c == '\\' then ['\\', '\\']
  else if c == '\n' then ['\\', 'n']
  else if c == '\r' then ['\\', 'r']
  else if c == '\t' then ['\\', 't']
  else if c == '\x08' then ['\\', 'b']
  else if c == '\x0c' then ['\\', 'f']
  else if c.toNat < 0x20 then
    let hx := fun (n : Nat) =>
      if n < 10 then Char.ofNat ('0'.toNat + n) else Char.ofNat ('a'.toNat + n - 10)
    ['\\', 'u', '0', '0', hx (c.toNat / 16), hx (c.toNat % 16)]
  else [c]

def jsonQuote (s : String) : String :=
  ⟨'"' :: s.data.foldr (fun c acc => jsonEscapeChar c ++ acc) ['"']⟩

mutual
/-- Model of `JSON.stringify` with no spacing argument. -/
def jsonStringify : Json → String
  | .null => "null"
  | .bool true => "true"
  | .bool false => "false"
  | .num lex => lex
  | .str s => jsonQuote s
  | .arr es => "[" ++ stringifyArr es ++ "]"
  | .obj fs => "\x7b" ++ stringifyObj fs ++ "\x7d"

def stringifyArr : JsonArr → String
  | .nil => ""
  | .cons j .nil => jsonStringify j
  | .cons j rest => jsonStringify j ++ "," ++ stringifyArr rest

def stringifyObj : JsonObj → String
  | .nil => ""
  | .cons k v .nil => jsonQuote k ++ ":" ++ jsonStringify v
  | .cons k v rest => jsonQuote k ++ ":" ++ jsonStringify v ++ "," ++ stringifyObj rest
end

def JsonObj.findVal : JsonObj → String → Option Json
  | .nil, _ => none
  | .cons k2 v rest, k => if k2 == k then some v else rest.findVal k

def Json.getField (j : Json) (k : String) : Option Json :=
  match j with
  | .obj fs => fs.findVal k
  | _ => none

/-- Is a number lexeme numerically zero (`0`, `-0`, `0.00`, `0e9`, …)? -/
def numIsZero (lex : String) : Bool :=
  (lex.data.takeWhile (fun c => c != 'e' && c != 'E')).all
    (fun c => c == '0' || c == '.' || c == '-')

/-- JS truthiness of a JSON value. -/
def jsTruthy (j : Json) : Bool :=
  match j with
  | .null => false
  | .bool b => b
  | .num lex => !numIsZero lex
  | .str s => s != ""
  | .arr _ => true
  | .obj _ => true

mutual
/-- JS string coercion of a JSON value (template-literal interpolation);
arrays coerce to their comma-joined elements, objects to
`"[object Object]"`. -/
def jsToStr : Json → String
  | .null => "null"
  | .bool true => "true"
  | .bool false => "false"
  | .num lex => lex
  | .str s => s
  | .arr es => jsToStrArr es
  | .obj _ => "[object Object]"

def jsToStrArr : JsonArr → String
  | .nil => ""
  | .cons j .nil => jsToStr j
  | .cons j rest => jsToStr j ++ "," ++ jsToStrArr rest
end

/-- Access of `parsed.choices?.[0]?.delta?.<name>` (optional chaining). -/
def deltaField (j : Json) (name : String) : Option Json :=
  match j.getField "choices" with
  | some (.arr (.cons c0 _)) =>
    match c0.getField "delta" with
    | some d => d.getField name
    | none => none
  | _ => none

/-- Overwrite an object field in place (JS property assignment on an
existing key). -/
def objSet (j : Json) (k : String) (v : Json) : Json :=
  match j with
  | .obj fs => .obj (insertKV fs k v)
  | _ => j

/-- Assignment `parsed.choices[0].delta.content = v` (only reached when the whole
chain exists and is truthy). -/
def setDeltaContent (j : Json) (v : Json) : Json :=
  match j.getField "choices" with
  | some (.arr (.cons c0 rest)) =>
    (match c0.getField "delta" with
     | some d =>
       objSet j "choices" (.arr (.cons (objSet c0 "delta" (objSet d "content" v)) rest))
     | none => j)
  | _ => j

/-! ## Search results and the context composer (page.tsx lines 22–36, 157–196) -/

structure TavilyImage where
  url : String
  description : Option String
deriving Repr

/-- The client's `SearchResult` shape.  `title`/`content`/`url` are read via
template interpolation in the source, so they are kept as plain strings (a
missing field would interpolate as `"undefined"`; see `jsFieldStr`).
`snippet` is only ever used through `result.snippet || …`, so it is `none`
exactly when the raw field is missing or falsy. -/
structure SearchResult where
  title : String
  content : String
  url : String
  snippet : Option String
  image : Option TavilyImage
deriving Repr

/-- Split on newline characters, as JS `split('\n')` (structural, so the
kernel can evaluate it). -/
def splitNLGo : List Char → List Char → List String
  | acc, [] => [⟨acc.reverse⟩]
  | acc, c :: rest =>
    if c == '\n' then (⟨acc.reverse⟩ : String) :: splitNLGo [] rest
    else splitNLGo (c :: acc) rest

def splitLines (s : String) : List String := splitNLGo [] s.data

/-- Read a field the way a template literal would (`${result.title}`):
absent fields interpolate as `"undefined"`. -/
def jsFieldStr (j : Json) (k : String) : String :=
  match j.getField k with
  | some v => jsToStr v
  | none => "undefined"

def jsFieldSnippet (j : Json) : Option String :=
  match j.getField "snippet" with
  | some v => if jsTruthy v then some (jsToStr v) else none
  | none => none

def toTavilyImage (j : Json) : TavilyImage :=
  { url := jsFieldStr j "url",
    description :=
      match j.getField "description" with
      | some v => if jsTruthy v then some (jsToStr v) else none
      | none => none }

/-- Model of `searchData.results.map((result, index) => (\x7b...result, image:
searchData.images?.[index]}))` (page.tsx lines 162–165). -/
def resultsWithImages (searchData : Json) : List SearchResult :=
  let images : List Json :=
    match searchData.getField "images" with
    | some (.arr l) => l.toList
    | _ => []
  let rec go : Nat → List Json → List SearchResult
    | _, [] => []
    | i, r :: rest =>
      { title := jsFieldStr r "title",
        content := jsFieldStr r "content",
        url := jsFieldStr r "url",
        snippet := jsFieldSnippet r,
        image := (images.get? i).map toTavilyImage } :: go (i + 1) rest
  match searchData.getField "results" with
  | some (.arr l) => go 0 l.toList
  | _ => []

/-- Map with the element index, as JS `Array.prototype.map`'s second
callback argument. -/
def listMapIdx (f : Nat → α → β) (l : List α) : List β :=
  let rec go : Nat → List α → List β
    | _, [] => []
    | i, a :: rest => f i a :: go (i + 1) rest
  go 0 l

/-- The description cell used by both sources tables:
`${result.snippet || result.content.slice(0, 150)}${result.content.length > 150 ? '...' : ''}`. -/
def descCell (r : SearchResult) : String :=
  (match r.snippet with
   | some s => s
   | none => jsSlice r.content 150) ++
  (if r.content.length > 150 then "..." else "")

/-- One row of the sources table (page.tsx lines 192–194 and 316–318). -/
def sourceRow (i : Nat) (r : SearchResult) : String :=
  "| " ++ toString (i + 1) ++ " | [" ++ r.title ++ "](" ++ r.url ++ ") | " ++
    descCell r ++ " |"

/-- The `searchContext` prompt block (page.tsx lines 180–184). -/
def searchContext (rs : List SearchResult) : String :=
  String.intercalate "\n\n"
    (listMapIdx
      (fun i r =>
        "[Source " ++ toString (i + 1) ++ "]: " ++ r.title ++ "\n" ++ r.content ++
          "\nURL: " ++ r.url ++ "\n")
      rs)

/-- The `sourcesTable` literal (page.tsx lines 191–194). -/
def sourcesTable (rs : List SearchResult) : String :=
  "\n\n## Sources\n| Number | Source | Description |\n|---------|---------|-------------|\n" ++
    String.intercalate "\n" (listMapIdx sourceRow rs)

/-- The `tavilyAnswer` line (page.tsx lines 186–188). -/
def tavilyAnswerLine (searchData : Json) : String :=
  match searchData.getField "answer" with
  | some v =>
    if jsTruthy v then "\nTavily's Direct Answer: " ++ jsToStr v ++ "\n\n" else ""
  | none => ""

/-- The `reasoningInput` prompt (page.tsx line 196). -/
def reasoningInput (query : String) (searchData : Json) (rs : List SearchResult) : String :=
  "Here is the research data:" ++ tavilyAnswerLine searchData ++ "\n" ++
    searchContext rs ++
    "\n\nPlease analyze this information and create a detailed report addressing the original query: \"" ++
    query ++
    "\". Include citations to the sources where appropriate. If the sources contain any potential biases or conflicting information, please note that in your analysis.\n\nIMPORTANT: Always end your response with a sources table listing all references used. Format it exactly as shown below:\n" ++
    sourcesTable rs

/-! ## The client's sources-table rewrite (page.tsx lines 303–337) -/

def properTable (rwi : List SearchResult) : String :=
  "\n\n| Number | Source | Description |\n|---|---|---|\n" ++
    String.intercalate "\n" (listMapIdx sourceRow rwi) ++ "\n"

/-- The `if (formattedContent.includes('# Sources') …)` block that replaces a
malformed sources table with a freshly generated one. -/
def clientTableFix (rwi : List SearchResult) (text : String) : String :=
  if jsIncludes text "# Sources" || jsIncludes text "## Sources" then
    if jsIncludes text "| Number" || jsIncludes text "|Number" then
      let tableStart : Int := max (jsLastIndexOf text "# Sources") (jsLastIndexOf text "## Sources")
      if tableStart > -1 then
        let tableSection := jsSubstringFrom text tableStart.toNat
        let tableHeaderIndex := jsIndexOf tableSection "\n|"
        let newSourcesSection :=
          if tableHeaderIndex > -1 then
            let tableEndIndex := jsIndexOfFrom tableSection "\n\n" tableHeaderIndex.toNat
            if tableEndIndex > -1 then
              jsSubstringTo tableSection tableHeaderIndex.toNat ++ properTable rwi ++
                jsSubstringFrom tableSection tableEndIndex.toNat
            else
              jsSubstringTo tableSection tableHeaderIndex.toNat ++ properTable rwi
          else tableSection
        jsSubstringTo text tableStart.toNat ++ newSourcesSection
      else text
    else text
  else text

/-- The client's whole per-chunk formatting pass over the accumulated answer
(page.tsx lines 260–337): the inline rule sequence followed by the
sources-table rewrite. -/
def clientFormatted (rwi : List SearchResult) (text : String) : String :=
  clientTableFix rwi (applyRules clientRules text)

/-! ## Stream demultiplexing

The relay side (route.ts lines 150–195) and the client classification
(page.tsx lines 239–351). -/

/-- One line of the relay loop (route.ts lines 164–184): skip blank lines and
the `data: [DONE]` sentinel, strip a `data: ` prefix, parse; on parse failure
skip the line (the `catch` only logs); on success repair a truthy
`delta.content` and re-serialise. -/
def relayLine (line : String) : Option String :=
  if jsTrim line == "" then none
  else if jsTrim line == "data: [DONE]" then none
  else
    let data := if isPrefixL "data: ".data line.data then (⟨line.data.drop 6⟩ : String) else line
    match jsonParse data with
    | none => none
    | some parsed =>
      let parsed2 :=
        match deltaField parsed "content" with
        | some c =>
          if jsTruthy c then
            setDeltaContent parsed (.str (ensureProperMarkdown (jsToStr c)))
          else parsed
        | none => parsed
      some (jsonStringify parsed2 ++ "\n")

/-- The relay's handling of one upstream chunk: split on newlines and process
each line; each surviving record is enqueued as its own chunk. -/
def relayChunk (chunk : String) : List String :=
  (splitLines chunk).filterMap relayLine

/-- A classified unit of the stream (spec §3 `ChannelEvent`). -/
inductive ChannelEvent where
  | reasoning (text : String)
  | answer (text : String)
deriving Repr, DecidableEq

/-- The client's per-line classification (page.tsx lines 241–255):
`delta.reasoning_content` truthy → reasoning, else `delta.content` truthy →
answer, else nothing; a line that fails to parse is skipped by the `catch`. -/
def classifyLine (line : String) : Option ChannelEvent :=
  match jsonParse line with
  | none => none
  | some parsed =>
    match deltaField parsed "reasoning_content" with
    | some v =>
      if jsTruthy v then some (.reasoning (jsToStr v))
      else
        match deltaField parsed "content" with
        | some c => if jsTruthy c then some (.answer (jsToStr c)) else none
        | none => none
    | none =>
      match deltaField parsed "content" with
      | some c => if jsTruthy c then some (.answer (jsToStr c)) else none
      | none => none

/-- The client's line extraction from one received chunk
(page.tsx lines 236–237). -/
def clientChunkLines (chunk : String) : List String :=
  (splitLines chunk).filter (fun l => jsTrim l != "")

/-- Events produced from one relayed chunk. -/
def chunkEvents (chunk : String) : List ChannelEvent :=
  (clientChunkLines chunk).filterMap classifyLine

/-- Events the client sees when the relay receives the given raw lines:
relay line processing composed with client classification. -/
def relayEvents (lines : List String) : List ChannelEvent :=
  (lines.filterMap relayLine).flatMap chunkEvents

/-- The full client line list for a run of upstream chunks. -/
def clientLineList (chunks : List String) : List String :=
  (chunks.flatMap relayChunk).flatMap clientChunkLines

/-! ## The answer aggregator (page.tsx lines 255–346)

On each answer chunk the client appends to `assistantMessage.content` and
recomputes the published `response` by formatting the whole accumulated
text. -/

structure AnswerAcc where
  content : String
  response : String
deriving Repr

def onAnswerChunk (rwi : List SearchResult) (st : AnswerAcc) (text : String) : AnswerAcc :=
  let newContent := st.content ++ text
  { content := newContent, response := clientFormatted rwi newContent }

def runAnswers (rwi : List SearchResult) (chunks : List String) : AnswerAcc :=
  chunks.foldl (onAnswerChunk rwi) ⟨"", ""⟩

/-! ## Operational model of `handleSubmit` (page.tsx lines 106–386)

React state updates are modelled as synchronous record updates on `AppState`.
The async body of one submission is a task; `stepTask` executes one
await-resumption (search response, completion response, one stream line, or
loop end).  An `AbortController` is a numeric id; aborting adds the id to
`abortedCtrls`, and a task whose controller is aborted finds its pending
await rejected with `AbortError` at its next resumption (caught at page.tsx
line 364, mutating nothing, before the `finally` cleanup).  `searchCalls` and
`completionCalls` count issued fetches to `/api/tavily` and `/api/chat`. -/

structure ChatMessage where
  role : String
  content : String
deriving Repr

/-- One section of the conversation (`ChatSection`, page.tsx lines 38–47). -/
structure Section where
  query : String
  searchResults : List SearchResult
  reasoning : String
  response : String
  error : Option String
  isLoadingSources : Bool
  isLoadingThinking : Bool
deriving Repr

def emptySection : Section :=
  { query := "", searchResults := [], reasoning := "", response := "",
    error := none, isLoadingSources := false, isLoadingThinking := false }

/-- How the environment answers the `/api/tavily` fetch: a resolved response
(`ok` flag and the value `await …json()` yields), or a transport rejection. -/
inductive SearchOutcome where
  | resp (ok : Bool) (body : Json)
  | reject (msg : String)

/-- The environment's script for one submission: the search outcome, whether
the `/api/chat` response is `ok`, and the upstream provider chunks relayed
through the route handler. -/
structure Script where
  search : SearchOutcome
  completionOk : Bool
  chunks : List String

/-- Program counter of one in-flight submission, between awaits. -/
inductive TaskPhase where
  | beforeSearch
  | beforeCompletion (rwi : List SearchResult)
  | streaming (rwi : List SearchResult) (reasoningAcc contentAcc : String)
      (lines : List String)

structure PTask where
  ctrl : Nat
  sectionIndex : Nat
  script : Script
  phase : TaskPhase

structure AppState where
  messages : List ChatMessage
  input : String
  lastQuery : String
  isLoading : Bool
  currentReasoning : String
  globalError : Option String
  currentSearchResults : List SearchResult
  hasSubmitted : Bool
  abortCtrl : Option Nat
  abortedCtrls : List Nat
  nextCtrl : Nat
  chatSections : List Section
  tasks : List PTask
  searchCalls : Nat
  completionCalls : Nat

def initState : AppState :=
  { messages := [], input := "", lastQuery := "", isLoading := false,
    currentReasoning := "", globalError := none, currentSearchResults := [],
    hasSubmitted := false, abortCtrl := none, abortedCtrls := [], nextCtrl := 0,
    chatSections := [], tasks := [], searchCalls := 0, completionCalls := 0 }

/-- Update the section at index `i` (the `setChatSections(prev => …)` pattern
with `updated[sectionIndex] = {...updated[sectionIndex], …}`). -/
def updateSection : List Section → Nat → (Section → Section) → List Section
  | [], _, _ => []
  | s :: rest, 0, f => f s :: rest
  | s :: rest, n + 1, f => s :: updateSection rest n f

def removeTask : List PTask → Nat → List PTask
  | [], _ => []
  | _ :: rest, 0 => rest
  | t :: rest, n + 1 => t :: removeTask rest n

def setTaskPhase (ts : List PTask) (i : Nat) (ph : TaskPhase) : List PTask :=
  match ts, i with
  | [], _ => []
  | t :: rest, 0 => { t with phase := ph } :: rest
  | t :: rest, n + 1 => t :: setTaskPhase rest n ph

/-- The body of `handleSubmit` up to its first await (page.tsx lines 106–149): the guard,
the cancellation of a previously stored controller, the synchronous state
updates, the appended section, and the issue of the search fetch.  The
environment's `Script` is attached to the spawned task. -/
def handleSubmit (st : AppState) (sc : Script) : AppState :=
  if jsTrim st.input == "" || st.isLoading then st
  else
    let q := st.input
    let aborted :=
      match st.abortCtrl with
      | some c => c :: st.abortedCtrls
      | none => st.abortedCtrls
    let ctrl := st.nextCtrl
    let newSection : Section :=
      { query := q, searchResults := [], reasoning := "", response := "",
        error := none, isLoadingSources := true, isLoadingThinking := false }
    { st with
      hasSubmitted := true
      lastQuery := q
      globalError := none
      currentSearchResults := []
      abortedCtrls := aborted
      abortCtrl := some ctrl
      nextCtrl := ctrl + 1
      messages := st.messages ++ [{ role := "user", content := q }]
      input := ""
      isLoading := true
      currentReasoning := ""
      chatSections := st.chatSections ++ [newSection]
      tasks := st.tasks ++ [{ ctrl := ctrl, sectionIndex := st.chatSections.length,
                              script := sc, phase := .beforeSearch }]
      searchCalls := st.searchCalls + 1 }

/-- The `finally` block (page.tsx lines 381–385) plus removal of the finished
task. -/
def taskCleanup (st : AppState) (tid : Nat) : AppState :=
  { st with tasks := removeTask st.tasks tid, isLoading := false, abortCtrl := none }

/-- The `catch` branch for a non-abort error (page.tsx lines 366–379) followed
by `finally`. -/
def failTask (st : AppState) (t : PTask) (tid : Nat) (msg : String) : AppState :=
  taskCleanup
    { st with
      globalError := some msg
      chatSections := updateSection st.chatSections t.sectionIndex
        (fun s => { s with error := some msg, isLoadingSources := false,
                           isLoadingThinking := false }) }
    tid

/-- Expression `searchData.error || 'Failed to fetch search results'` (page.tsx line 154). -/
def searchErrMsg (body : Json) : String :=
  match body.getField "error" with
  | some v => if jsTruthy v then jsToStr v else "Failed to fetch search results"
  | none => "Failed to fetch search results"

/-- Guard `!searchData.results || searchData.results.length === 0`
(page.tsx line 157). -/
def resultsEmptyGuard (body : Json) : Bool :=
  match body.getField "results" with
  | none => true
  | some v => if !jsTruthy v then true else
      match v with
      | .arr l => l.toList.isEmpty
      | .str s => s.length == 0
      | _ => false

/-- Execute one await-resumption of the task at index `tid`.  If the task's
controller has been aborted the resumption rejects with `AbortError`, which
the `catch` at page.tsx line 364 swallows (console.log only) before the
`finally` cleanup runs. -/
def stepTask (st : AppState) (tid : Nat) : AppState :=
  match st.tasks.get? tid with
  | none => st
  | some t =>
    if st.abortedCtrls.contains t.ctrl then taskCleanup st tid
    else
      match t.phase with
      | .beforeSearch =>
        (match t.script.search with
         | .reject msg => failTask st t tid msg
         | .resp ok body =>
           if !ok then failTask st t tid (searchErrMsg body)
           else if resultsEmptyGuard body then
             failTask st t tid "No relevant search results found. Please try a different query."
           else
             let rwi := resultsWithImages body
             { st with
               chatSections := updateSection st.chatSections t.sectionIndex
                 (fun s => { s with searchResults := rwi, isLoadingSources := false,
                                    isLoadingThinking := true })
               completionCalls := st.completionCalls + 1
               tasks := setTaskPhase st.tasks tid (.beforeCompletion rwi) })
      | .beforeCompletion rwi =>
        if !t.script.completionOk then
          failTask st t tid "Failed to generate report. Please try again."
        else
          { st with
            tasks := setTaskPhase st.tasks tid
              (.streaming rwi "" "" (clientLineList t.script.chunks)) }
      | .streaming rwi _ _ [] =>
        taskCleanup
          { st with
            chatSections := updateSection st.chatSections t.sectionIndex
              (fun s => { s with searchResults := rwi }) }
          tid
      | .streaming rwi racc cacc (l :: rest) =>
        (match classifyLine l with
         | none =>
           { st with tasks := setTaskPhase st.tasks tid (.streaming rwi racc cacc rest) }
         | some (.reasoning txt) =>
           let nr := racc ++ txt
           { st with
             currentReasoning := nr
             chatSections := updateSection st.chatSections t.sectionIndex
               (fun s => { s with reasoning := nr, isLoadingThinking := false })
             tasks := setTaskPhase st.tasks tid (.streaming rwi nr cacc rest) }
         | some (.answer txt) =>
           let nc := cacc ++ txt
           { st with
             chatSections := updateSection st.chatSections t.sectionIndex
               (fun s => { s with response := clientFormatted rwi nc })
             tasks := setTaskPhase st.tasks tid (.streaming rwi racc nc rest) })

/-- Run `n` steps of the task at index 0. -/
def runTask0 : AppState → Nat → AppState
  | st, 0 => st
  | st, n + 1 => runTask0 (stepTask st 0) n

def sectionAt (st : AppState) (i : Nat) : Section :=
  st.chatSections.getD i emptySection

/-! ## Spec-side definitions (for refinement claims) -/

/-- The context-block entry exactly as the spec's words state it
(`[Source N]: title\ncontent\nURL: url`). -/
def specSourceEntry (n : Nat) (r : SearchResult) : String :=
  "[Source " ++ toString n ++ "]: " ++ r.title ++ "\n" ++ r.content ++ "\nURL: " ++ r.url

/-- The context block as the spec's words state it: the entries joined with
blank-line separation, in result order, numbered from 1. -/
def specContextBlock (rs : List SearchResult) : String :=
  String.intercalate "\n\n" (listMapIdx (fun i r => specSourceEntry (i + 1) r) rs)

/-- A row of the sources table carrying citation number `n`
(`| n | [title](url) | description |`). -/
def specNumberedRow (n : Nat) (r : SearchResult) : String :=
  "| " ++ toString n ++ " | [" ++ r.title ++ "](" ++ r.url ++ ") | " ++ descCell r ++ " |"

/-- The result shape produced by the spec's Result Normalizer. -/
structure NormResult where
  title : String
  content : String
  url : String
  snippet : String
  score : Int
deriving Repr, DecidableEq

/-- A raw record's field read as a usable string: present, a string, and
non-empty; anything else counts as missing (the spec's records carry string
fields, and its §3 invariant wants the defaults to fill every falsy value). -/
def rawStrField (r : Json) (k : String) : Option String :=
  match r.getField k with
  | some (.str s) => if s == "" then none else some s
  | _ => none

/-- Integer value of a number lexeme's integral part (scores pass through,
defaulting only when missing). -/
def lexToInt (lex : String) : Int :=
  let (neg, ds) :=
    match lex.data with
    | '-' :: rest => (true, rest)
    | l => (false, l)
  let n : Nat := (ds.takeWhile Char.isDigit).foldl (fun acc c => acc * 10 + (c.toNat - '0'.toNat)) 0
  if neg then -(n : Int) else (n : Int)

def rawScoreField (r : Json) : Option Int :=
  match r.getField "score" with
  | some (.num lex) => some (lexToInt lex)
  | _ => none

/-- Modelled from the spec: the Result Normalizer (spec §4.1).  Its
implementation lives in the repository's `/api/tavily` route, which is not
among the provided source files (page.tsx only calls it), so this definition
follows the spec's words: per-record defaults `"Untitled Source"`,
`"No content available"`, `"#"`, snippet defaulting to the first 150
characters of the raw record's content, score defaulting to `0`; non-array or
null input yields the empty list without error.  (Named `normalizeResults`
because Mathlib already declares a root-level `normalize`.) -/
def normalizeRecord (r : Json) : NormResult :=
  let rawContent := (rawStrField r "content").getD ""
  { title := (rawStrField r "title").getD "Untitled Source",
    content := (rawStrField r "content").getD "No content available",
    url := (rawStrField r "url").getD "#",
    snippet := (rawStrField r "snippet").getD (jsSlice rawContent 150),
    score := (rawScoreField r).getD 0 }

def normalizeResults (j : Json) : List NormResult :=
  match j with
  | .arr l => l.toList.map normalizeRecord
  | _ => []

/-! ## Helper lemmas -/

theorem listMapIdx_go_length (f : Nat → α → β) (l : List α) (k : Nat) :
    (listMapIdx.go f k l).length = l.length := by
  induction l generalizing k with
  | nil => rfl
  | cons a rest ih => simp [listMapIdx.go, ih]

theorem listMapIdx_length (f : Nat → α → β) (l : List α) :
    (listMapIdx f l).length = l.length :=
  listMapIdx_go_length f l 0

theorem listMapIdx_go_get (f : Nat → α → β) (l : List α) (k i : Nat)
    (h : i < l.length) (h2 : i < (listMapIdx.go f k l).length) :
    (listMapIdx.go f k l).get ⟨i, h2⟩ = f (k + i) (l.get ⟨i, h⟩) := by
  induction l generalizing k i with
  | nil => exact absurd h (by simp)
  | cons a rest ih =>
    cases i with
    | zero => rfl
    | succ j =>
      have hj : j < rest.length := Nat.lt_of_succ_lt_succ h
      have hj2 : j < (listMapIdx.go f (k + 1) rest).length := by
        rw [listMapIdx_go_length]; exact hj
      have := ih (k + 1) j hj hj2
      simpa [listMapIdx.go, Nat.add_comm, Nat.add_assoc, Nat.add_left_comm] using this

theorem listMapIdx_get (f : Nat → α → β) (l : List α) (i : Nat)
    (h : i < l.length) (h2 : i < (listMapIdx f l).length) :
    (listMapIdx f l).get ⟨i, h2⟩ = f i (l.get ⟨i, h⟩) := by
  have := listMapIdx_go_get f l 0 i h h2
  simpa using this

theorem updateSection_getD_eq (l : List Section) (i : Nat) (f : Section → Section)
    (h : i < l.length) :
    (updateSection l i f).getD i emptySection = f (l.getD i emptySection) := by
  induction l generalizing i with
  | nil => exact absurd h (by simp)
  | cons s rest ih =>
    cases i with
    | zero => rfl
    | succ j => exact ih j (Nat.lt_of_succ_lt_succ h)

theorem updateSection_getD_ne (l : List Section) (i : Nat) (f : Section → Section)
    (j : Nat) (hne : j ≠ i) :
    (updateSection l i f).getD j emptySection = l.getD j emptySection := by
  induction l generalizing i j with
  | nil => rfl
  | cons s rest ih =>
    cases i with
    | zero =>
      cases j with
      | zero => exact absurd rfl hne
      | succ j2 => rfl
    | succ i2 =>
      cases j with
      | zero => rfl
      | succ j2 => exact ih i2 j2 (fun h => hne (by rw [h]))

theorem removeTask_length (l : List PTask) (i : Nat) (h : i < l.length) :
    (removeTask l i).length < l.length := by
  induction l generalizing i with
  | nil => exact absurd h (by simp)
  | cons t rest ih =>
    cases i with
    | zero => simp [removeTask]
    | succ j =>
      have := ih j (Nat.lt_of_succ_lt_succ h)
      simpa [removeTask, Nat.succ_lt_succ_iff] using this

/-! ## Claim C1 — idempotence of the Markdown repair -/

/-- A corpus of representative malformed-Markdown inputs, exercising the
heading, list, numbered-list, emphasis, table-separator, backtick, alt-marker
and blank-line rules. -/
def c1Corpus : List String :=
  ["", "#Heading", "#######x", "-item", "*item", "1.item", "|--|", "a`b",
   "Alt text here", "Intro\n#Head\nBody", "- a\nnext", "1. first\n2. second",
   "#Weather\nIt is cold."]

/-- C1 (counterexample): the repair function is not idempotent for every
string.  On `"Source1:"` the citation rewrite emits `"\n**Source:** "`, whose
line-initial `**` the list-marker rule then rewrites to `"* *"` on a second
pass — on the relay's `ensureProperMarkdown` and on the client's inline rule
sequence alike. -/
theorem c1_repair_not_idempotent :
    ensureProperMarkdown (ensureProperMarkdown "Source1:") ≠
      ensureProperMarkdown "Source1:" ∧
    applyRules clientRules (applyRules clientRules "Source1:") ≠
      applyRules clientRules "Source1:" := by
  constructor
  · decide
  · decide

/-- C1 (amended): `repair` is idempotent on the tested corpus of
representative malformed-Markdown inputs (general idempotence fails on
citation-marker inputs such as `"Source1:"`). -/
theorem c1_repair_idempotent_on_corpus :
    ∀ x ∈ c1Corpus,
      ensureProperMarkdown (ensureProperMarkdown x) = ensureProperMarkdown x ∧
      applyRules clientRules (applyRules clientRules x) = applyRules clientRules x := by
  decide

theorem c1_repair_idempotent_on_corpus_witness :
    "#Heading" ∈ c1Corpus ∧
      (ensureProperMarkdown (ensureProperMarkdown "#Heading") = ensureProperMarkdown "#Heading" ∧
       applyRules clientRules (applyRules clientRules "#Heading") = applyRules clientRules "#Heading") :=
  ⟨by decide, c1_repair_idempotent_on_corpus "#Heading" (by decide)⟩

/-! ## Claim C2 — incremental repair converges to batch repair -/

def joinChunks (l : List String) : String :=
  l.foldr (fun a b => a ++ b) ""

theorem clientFormatted_empty (rwi : List SearchResult) : clientFormatted rwi "" = "" := rfl

theorem runAnswers_foldl (rwi : List SearchResult) (chunks : List String)
    (st : AnswerAcc) (h : st.response = clientFormatted rwi st.content) :
    (chunks.foldl (onAnswerChunk rwi) st).response =
      clientFormatted rwi (st.content ++ joinChunks chunks) := by
  induction chunks generalizing st with
  | nil => simpa [joinChunks] using h
  | cons c cs ih =>
    have step : (onAnswerChunk rwi st c).response =
        clientFormatted rwi (onAnswerChunk rwi st c).content := rfl
    have := ih (onAnswerChunk rwi st c) step
    simpa [onAnswerChunk, joinChunks, String.append_assoc] using this

/-- C2: for a final answer text `T` split arbitrarily into chunks, feeding the
chunks through the aggregator (append to the accumulator, recompute the
published response by formatting the whole accumulated text) ends with the
published response equal to the formatting of `T` itself. -/
theorem c2_incremental_repair_converges (rwi : List SearchResult) (T : String)
    (chunks : List String) (h : joinChunks chunks = T) :
    (runAnswers rwi chunks).response = clientFormatted rwi T := by
  have := runAnswers_foldl rwi chunks ⟨"", ""⟩ rfl
  rw [runAnswers]
  rw [this, String.empty_append, h]

theorem c2_incremental_repair_converges_witness :
    joinChunks ["#Wea", "ther\n"] = "#Weather\n" ∧
      (runAnswers [] ["#Wea", "ther\n"]).response = clientFormatted [] "#Weather\n" :=
  ⟨by decide, c2_incremental_repair_converges [] "#Weather\n" ["#Wea", "ther\n"] (by decide)⟩

/-! ## Claim C4 — the demultiplexer skips malformed lines -/

theorem relayLine_malformed_none (line : String)
    (h : jsonParse (if isPrefixL "data: ".data line.data then (⟨line.data.drop 6⟩ : String) else line) = none) :
    relayLine line = none := by
  unfold relayLine
  by_cases h1 : jsTrim line == ""
  · simp [h1]
  · by_cases h2 : jsTrim line == "data: [DONE]"
    · simp [h1, h2]
    · simp [h1, h2, h]

def c4Record : String :=
  "\x7b\"choices\":[\x7b\"delta\":\x7b\"content\":\"A\"\x7d\x7d]\x7d"

/-- C4: a line whose payload fails to JSON-parse is dropped — exactly that
line, without aborting the stream — and the three-line stream
`["not json", '{"choices":[{"delta":{"content":"A"}}]}', "data: [DONE]"]`
yields exactly one `Answer "A"` event. -/
theorem c4_demux_skips_malformed :
    (∀ (pre post : List String) (line : String),
        (jsonParse (if isPrefixL "data: ".data line.data
            then (⟨line.data.drop 6⟩ : String) else line)).isNone = true →
        relayEvents (pre ++ line :: post) = relayEvents (pre ++ post)) ∧
    relayEvents ["not json", c4Record, "data: [DONE]"] = [.answer "A"] := by
  constructor
  · intro pre post line h
    unfold relayEvents
    rw [List.filterMap_append, List.filterMap_append,
        List.filterMap_cons_none (relayLine_malformed_none line (Option.isNone_iff_eq_none.mp h))]
  · decide

theorem c4_demux_skips_malformed_witness :
    (jsonParse "not json").isNone = true ∧
      relayEvents (([] : List String) ++ "not json" :: [c4Record]) =
        relayEvents (([] : List String) ++ [c4Record]) :=
  ⟨by decide, c4_demux_skips_malformed.1 [] [c4Record] "not json" (by decide)⟩

/-! ## Claim C3 — end-to-end scenario -/

def c3Body : Json :=
  .objL [("results", .arrL
    [.objL [("title", .str "Oslo weather"), ("content", .str "Cold."),
            ("url", .str "https://r1")],
     .objL [("title", .str "Oslo climate"), ("content", .str "Chilly."),
            ("url", .str "https://r2")]])]

/-- The environment for the scenario: a successful search with two results,
then a stream delivering the reasoning chunk `"Let me check..."` and the
answer chunks `"#Weather\n"` and `"It is cold."`, then the `[DONE]`
sentinel. -/
def c3Script : Script :=
  { search := .resp true c3Body, completionOk := true,
    chunks :=
      ["data: \x7b\"choices\":[\x7b\"delta\":\x7b\"reasoning_content\":\"Let me check...\"\x7d\x7d]\x7d\n",
       "data: \x7b\"choices\":[\x7b\"delta\":\x7b\"content\":\"#Weather\\n\"\x7d\x7d]\x7d\n",
       "data: \x7b\"choices\":[\x7b\"delta\":\x7b\"content\":\"It is cold.\"\x7d\x7d]\x7d\n",
       "data: [DONE]\n"] }

/-- Submission plus the six await-resumptions of the pipeline (search,
completion, three stream lines, stream end). -/
def c3Run : AppState :=
  runTask0 (handleSubmit { initState with input := "weather in Oslo" } c3Script) 6

/-- C3 (counterexample): in the end-to-end scenario the final response is not
`"# Weather\n\nIt is cold."`.  The blank-line rule
`/(\n#{1,6}[^\n]+)\n(?=[^\n])/` requires a newline *before* the heading, and
this heading starts the text, so no blank line is inserted after it. -/
theorem c3_scenario_response_counterexample :
    (sectionAt c3Run 0).response ≠ "# Weather\n\nIt is cold." := by
  decide

/-- C3 (amended): the scenario's final Section has reasoning exactly
`"Let me check..."` (reasoning passes through unrepaired) and response exactly
`"# Weather\nIt is cold."` (space inserted after the `#`, but no blank line
after the heading, which starts the text), the section finishes without error
and the pipeline terminates. -/
theorem c3_scenario_final_section :
    (sectionAt c3Run 0).reasoning = "Let me check..." ∧
    (sectionAt c3Run 0).response = "# Weather\nIt is cold." ∧
    (sectionAt c3Run 0).error = none ∧
    c3Run.tasks.length = 0 ∧
    c3Run.isLoading = false := by
  refine ⟨?_, ?_, ?_, ?_, ?_⟩ <;> decide

/-! ## Claim C5 — cancellation on resubmission -/

/-- The loading guard (page.tsx line 108): a submission while a request is in
flight returns before mutating anything. -/
theorem handleSubmit_loading_noop (st : AppState) (sc : Script)
    (h : st.isLoading = true) : handleSubmit st sc = st := by
  unfold handleSubmit
  rw [h]
  simp

def c5Body : Json :=
  .objL [("results", .arrL
    [.objL [("title", .str "t"), ("content", .str "c"), ("url", .str "u")]])]

def c5Script : Script :=
  { search := .resp true c5Body, completionOk := true,
    chunks :=
      ["data: \x7b\"choices\":[\x7b\"delta\":\x7b\"content\":\"Hello \"\x7d\x7d]\x7d\n",
       "data: \x7b\"choices\":[\x7b\"delta\":\x7b\"content\":\"world\"\x7d\x7d]\x7d\n"] }

/-- Q1 submitted and advanced through search, completion and its first answer
chunk: still in flight. -/
def c5Mid : AppState :=
  runTask0 (handleSubmit { initState with input := "q1" } c5Script) 3

/-- Q2 submitted while Q1 is in flight. -/
def c5AfterQ2 : AppState := handleSubmit { c5Mid with input := "q2" } c5Script

/-- One more resumption of Q1 after Q2's submission. -/
def c5AfterQ2Step : AppState := stepTask c5AfterQ2 0

/-- C5 (counterexample): submitting Q2 while Q1 is in flight does *not*
cancel Q1 — the loading guard makes the submission a no-op (no controller is
aborted, no section is appended) — and Q1's next event still mutates Q1's
Section (its response grows from `"Hello "` to `"Hello world"`). -/
theorem c5_cancellation_counterexample :
    c5AfterQ2.abortedCtrls = ([] : List Nat) ∧
    c5AfterQ2.chatSections.length = 1 ∧
    (sectionAt c5AfterQ2 0).response = "Hello " ∧
    (sectionAt c5AfterQ2Step 0).response = "Hello world" := by
  refine ⟨?_, ?_, ?_, ?_⟩ <;> decide

/-- C5 (amended): a submission made while the loading flag is set is a no-op,
so it does not cancel the in-flight request and that request's events keep
updating its own Section; cancellation happens only when a submission is
accepted (loading flag clear, non-blank query) while a controller is still
stored — that controller is then aborted — and once a task's controller is
aborted, its remaining steps never mutate any Section. -/
theorem c5_cancellation_amended :
    (∀ (st : AppState) (sc : Script), st.isLoading = true → handleSubmit st sc = st) ∧
    (∀ (st : AppState) (sc : Script) (c : Nat),
       st.isLoading = false → (jsTrim st.input == "") = false → st.abortCtrl = some c →
       c ∈ (handleSubmit st sc).abortedCtrls) ∧
    (∀ (st : AppState) (tid : Nat) (t : PTask),
       st.tasks.get? tid = some t → st.abortedCtrls.contains t.ctrl = true →
       (stepTask st tid).chatSections = st.chatSections) := by
  refine ⟨handleSubmit_loading_noop, ?_, ?_⟩
  · intro st sc c h1 h2 h3
    unfold handleSubmit
    rw [h1, h2, h3]
    simp
  · intro st tid t h1 h2
    have h3 : t.ctrl ∈ st.abortedCtrls := by simpa using h2
    unfold stepTask
    rw [h1]
    simp [h3, taskCleanup]

theorem c5_cancellation_amended_witness :
    (handleSubmit { initState with isLoading := true } c5Script =
      { initState with isLoading := true }) ∧
    (0 ∈ (handleSubmit { initState with input := "q", abortCtrl := some 0 } c5Script).abortedCtrls) ∧
    ((stepTask { initState with
        tasks := [{ ctrl := 7, sectionIndex := 0, script := c5Script, phase := .beforeSearch }],
        abortedCtrls := [7] } 0).chatSections =
      ({ initState with
        tasks := [{ ctrl := 7, sectionIndex := 0, script := c5Script, phase := .beforeSearch }],
        abortedCtrls := [7] } : AppState).chatSections) :=
  ⟨c5_cancellation_amended.1 _ c5Script rfl,
   c5_cancellation_amended.2.1 _ c5Script 0 rfl (by decide) rfl,
   c5_cancellation_amended.2.2 _ 0 _ rfl (by decide)⟩

/-! ## Claim C6 — failures are recorded on the failing Section only -/

theorem failTask_section_eq (st : AppState) (t : PTask) (tid : Nat) (msg : String)
    (hlt : t.sectionIndex < st.chatSections.length) :
    sectionAt (failTask st t tid msg) t.sectionIndex =
      { sectionAt st t.sectionIndex with
        error := some msg, isLoadingSources := false, isLoadingThinking := false } := by
  unfold failTask taskCleanup sectionAt
  dsimp only
  rw [updateSection_getD_eq st.chatSections t.sectionIndex _ hlt]

theorem failTask_section_ne (st : AppState) (t : PTask) (tid : Nat) (msg : String)
    (j : Nat) (h : j ≠ t.sectionIndex) :
    sectionAt (failTask st t tid msg) j = sectionAt st j := by
  unfold failTask taskCleanup sectionAt
  dsimp only
  rw [updateSection_getD_ne st.chatSections t.sectionIndex _ j h]

theorem stepTask_search_fail (st : AppState) (tid : Nat) (t : PTask) (body : Json)
    (h1 : st.tasks.get? tid = some t) (h2 : st.abortedCtrls.contains t.ctrl = false)
    (h3 : t.phase = .beforeSearch) (h4 : t.script.search = .resp false body) :
    stepTask st tid = failTask st t tid (searchErrMsg body) := by
  have h2m : ¬ (t.ctrl ∈ st.abortedCtrls) := by simpa using h2
  unfold stepTask
  rw [h1]
  simp [h2m, h3, h4]

theorem stepTask_completion_fail (st : AppState) (tid : Nat) (t : PTask)
    (rwi : List SearchResult)
    (h1 : st.tasks.get? tid = some t) (h2 : st.abortedCtrls.contains t.ctrl = false)
    (h3 : t.phase = .beforeCompletion rwi) (h4 : t.script.completionOk = false) :
    stepTask st tid = failTask st t tid "Failed to generate report. Please try again." := by
  have h2m : ¬ (t.ctrl ∈ st.abortedCtrls) := by simpa using h2
  unfold stepTask
  rw [h1]
  simp [h2m, h3, h4]

/-- C6: on a search failure (non-`ok` response) or a completion failure, the
failing query's Section records the error message (for search, the body's
`error` field if truthy, else the fallback text), its accumulated reasoning
and response are left unchanged, every other Section is untouched, and the
pipeline for that query stops (its task is removed). -/
theorem c6_failure_handling :
    (∀ (st : AppState) (tid : Nat) (t : PTask) (body : Json),
       st.tasks.get? tid = some t →
       st.abortedCtrls.contains t.ctrl = false →
       t.phase = .beforeSearch →
       t.script.search = .resp false body →
       t.sectionIndex < st.chatSections.length →
       (sectionAt (stepTask st tid) t.sectionIndex).error = some (searchErrMsg body) ∧
       (sectionAt (stepTask st tid) t.sectionIndex).reasoning =
         (sectionAt st t.sectionIndex).reasoning ∧
       (sectionAt (stepTask st tid) t.sectionIndex).response =
         (sectionAt st t.sectionIndex).response ∧
       (∀ j, j ≠ t.sectionIndex → sectionAt (stepTask st tid) j = sectionAt st j) ∧
       (stepTask st tid).tasks = removeTask st.tasks tid) ∧
    (∀ (st : AppState) (tid : Nat) (t : PTask) (rwi : List SearchResult),
       st.tasks.get? tid = some t →
       st.abortedCtrls.contains t.ctrl = false →
       t.phase = .beforeCompletion rwi →
       t.script.completionOk = false →
       t.sectionIndex < st.chatSections.length →
       (sectionAt (stepTask st tid) t.sectionIndex).error =
         some "Failed to generate report. Please try again." ∧
       (sectionAt (stepTask st tid) t.sectionIndex).reasoning =
         (sectionAt st t.sectionIndex).reasoning ∧
       (sectionAt (stepTask st tid) t.sectionIndex).response =
         (sectionAt st t.sectionIndex).response ∧
       (∀ j, j ≠ t.sectionIndex → sectionAt (stepTask st tid) j = sectionAt st j) ∧
       (stepTask st tid).tasks = removeTask st.tasks tid) := by
  constructor
  · intro st tid t body h1 h2 h3 h4 hlt
    rw [stepTask_search_fail st tid t body h1 h2 h3 h4]
    refine ⟨?_, ?_, ?_, ?_, ?_⟩
    · rw [failTask_section_eq st t tid _ hlt]
    · rw [failTask_section_eq st t tid _ hlt]
    · rw [failTask_section_eq st t tid _ hlt]
    · intro j hj; exact failTask_section_ne st t tid _ j hj
    · rfl
  · intro st tid t rwi h1 h2 h3 h4 hlt
    rw [stepTask_completion_fail st tid t rwi h1 h2 h3 h4]
    refine ⟨?_, ?_, ?_, ?_, ?_⟩
    · rw [failTask_section_eq st t tid _ hlt]
    · rw [failTask_section_eq st t tid _ hlt]
    · rw [failTask_section_eq st t tid _ hlt]
    · intro j hj; exact failTask_section_ne st t tid _ j hj
    · rfl

/-- The concrete failure scenario: the search call comes back non-`ok` with
body `{"error":"upstream down"}` right after submission. -/
def c6FailBody : Json := .objL [("error", .str "upstream down")]

def c6Script : Script :=
  { search := .resp false c6FailBody, completionOk := true, chunks := [] }

def c6Submitted : AppState := handleSubmit { initState with input := "q" } c6Script

theorem c6_failure_handling_witness :
    c6Submitted.tasks.get? 0 =
      some { ctrl := 0, sectionIndex := 0, script := c6Script, phase := .beforeSearch } ∧
    searchErrMsg c6FailBody = "upstream down" ∧
    (sectionAt (stepTask c6Submitted 0) 0).error = some (searchErrMsg c6FailBody) ∧
    (sectionAt (stepTask c6Submitted 0) 0).reasoning = (sectionAt c6Submitted 0).reasoning ∧
    (sectionAt (stepTask c6Submitted 0) 0).response = (sectionAt c6Submitted 0).response ∧
    (sectionAt c6Submitted 0).reasoning = "" ∧
    (sectionAt c6Submitted 0).response = "" :=
  have h := c6_failure_handling.1 c6Submitted 0
    { ctrl := 0, sectionIndex := 0, script := c6Script, phase := .beforeSearch }
    c6FailBody rfl rfl rfl rfl (by decide)
  ⟨rfl, rfl, h.1, h.2.1, h.2.2.1, rfl, rfl⟩

/-! ## Claim C7 — fail fast on empty input and empty results -/

theorem handleSubmit_empty_noop (st : AppState) (sc : Script)
    (h : jsTrim st.input = "") : handleSubmit st sc = st := by
  unfold handleSubmit
  rw [h]
  simp

theorem resultsEmptyGuard_of (body : Json)
    (h : body.getField "results" = none ∨ body.getField "results" = some (Json.arr .nil)) :
    resultsEmptyGuard body = true := by
  unfold resultsEmptyGuard
  rcases h with h | h <;> simp [h, jsTruthy, JsonArr.toList]

theorem stepTask_noresults (st : AppState) (tid : Nat) (t : PTask) (body : Json)
    (h1 : st.tasks.get? tid = some t) (h2 : st.abortedCtrls.contains t.ctrl = false)
    (h3 : t.phase = .beforeSearch) (h4 : t.script.search = .resp true body)
    (h5 : resultsEmptyGuard body = true) :
    stepTask st tid =
      failTask st t tid "No relevant search results found. Please try a different query." := by
  have h2m : ¬ (t.ctrl ∈ st.abortedCtrls) := by simpa using h2
  unfold stepTask
  rw [h1]
  simp [h2m, h3, h4, h5]

/-- C7: an empty (or whitespace-only) query is rejected before anything
happens — `handleSubmit` returns the state unchanged, so no search call is
issued — and a successful search whose `results` are missing or empty fails
the query with the no-results message without ever calling the completion
provider (the task is removed, `completionCalls` does not change). -/
theorem c7_fail_fast :
    (∀ (st : AppState) (sc : Script), jsTrim st.input = "" → handleSubmit st sc = st) ∧
    (∀ (st : AppState) (tid : Nat) (t : PTask) (body : Json),
       st.tasks.get? tid = some t →
       st.abortedCtrls.contains t.ctrl = false →
       t.phase = .beforeSearch →
       t.script.search = .resp true body →
       (body.getField "results" = none ∨ body.getField "results" = some (Json.arr .nil)) →
       t.sectionIndex < st.chatSections.length →
       (stepTask st tid).completionCalls = st.completionCalls ∧
       (sectionAt (stepTask st tid) t.sectionIndex).error =
         some "No relevant search results found. Please try a different query." ∧
       (stepTask st tid).tasks = removeTask st.tasks tid) := by
  refine ⟨handleSubmit_empty_noop, ?_⟩
  intro st tid t body h1 h2 h3 h4 hres hlt
  rw [stepTask_noresults st tid t body h1 h2 h3 h4 (resultsEmptyGuard_of body hres)]
  exact ⟨rfl, by rw [failTask_section_eq st t tid _ hlt], rfl⟩

def c7EmptyBody : Json := .objL [("results", .arrL [])]

def c7Script : Script := { search := .resp true c7EmptyBody, completionOk := true, chunks := [] }

def c7Submitted : AppState := handleSubmit { initState with input := "q" } c7Script

theorem c7_fail_fast_witness :
    (handleSubmit { initState with input := "   " } c7Script =
      { initState with input := "   " }) ∧
    ((stepTask c7Submitted 0).completionCalls = c7Submitted.completionCalls ∧
     (sectionAt (stepTask c7Submitted 0) 0).error =
       some "No relevant search results found. Please try a different query." ∧
     (stepTask c7Submitted 0).tasks = removeTask c7Submitted.tasks 0) :=
  ⟨c7_fail_fast.1 _ c7Script rfl,
   c7_fail_fast.2 c7Submitted 0
     { ctrl := 0, sectionIndex := 0, script := c7Script, phase := .beforeSearch }
     c7EmptyBody rfl rfl rfl rfl (Or.inr rfl) (by decide)⟩

/-! ## Claim C10 — the loading flag makes submission a no-op -/

theorem stepTask_clear_or_keep (st : AppState) (tid : Nat) :
    (stepTask st tid).isLoading = st.isLoading ∨
    (stepTask st tid).tasks.length < st.tasks.length := by
  unfold stepTask
  split
  · exact Or.inl rfl
  · rename_i t heq
    have htid : tid < st.tasks.length := by
      rcases List.get?_eq_some.mp heq with ⟨h, _⟩
      exact h
    have hrem : (removeTask st.tasks tid).length < st.tasks.length :=
      removeTask_length st.tasks tid htid
    split
    · exact Or.inr (by simpa [taskCleanup] using hrem)
    · split
      · split
        · exact Or.inr (by simpa [failTask, taskCleanup] using hrem)
        · split
          · exact Or.inr (by simpa [failTask, taskCleanup] using hrem)
          · split
            · exact Or.inr (by simpa [failTask, taskCleanup] using hrem)
            · exact Or.inl rfl
      · split
        · exact Or.inr (by simpa [failTask, taskCleanup] using hrem)
        · exact Or.inl rfl
      · exact Or.inr (by simpa [taskCleanup] using hrem)
      · split
        · exact Or.inl rfl
        · exact Or.inl rfl
        · exact Or.inl rfl

/-- C10: while a request is in flight (the loading flag is set), submitting
another query is a complete no-op — the state, sections, messages and the
stored controller are untouched — and the loading flag is cleared only by a
step that ends a task (the finished, failed or aborted pipeline is removed). -/
theorem c10_loading_guard :
    (∀ (st : AppState) (sc : Script), st.isLoading = true → handleSubmit st sc = st) ∧
    (∀ (st : AppState) (tid : Nat),
       st.isLoading = true → (stepTask st tid).isLoading = false →
       (stepTask st tid).tasks.length < st.tasks.length) := by
  refine ⟨handleSubmit_loading_noop, ?_⟩
  intro st tid h1 h2
  rcases stepTask_clear_or_keep st tid with h | h
  · rw [h1] at h
    rw [h] at h2
    exact absurd h2 (by decide)
  · exact h

theorem c10_loading_guard_witness :
    (handleSubmit { initState with input := "x", isLoading := true } c7Script =
      { initState with input := "x", isLoading := true }) ∧
    ((stepTask c7Submitted 0).isLoading = false →
      (stepTask c7Submitted 0).tasks.length < c7Submitted.tasks.length) :=
  ⟨c10_loading_guard.1 _ c7Script rfl, c10_loading_guard.2 c7Submitted 0 rfl⟩

/-! ## Claim C8 — context composer and citation numbering -/

def c8Results : List SearchResult :=
  [{ title := "A", content := "ca", url := "ua", snippet := none, image := none },
   { title := "B", content := "cb", url := "ub", snippet := some "sb", image := none }]

/-- C8 (counterexample): the composed context block is not the blank-line
join of `[Source N]: title\ncontent\nURL: url` entries — each entry in the
source carries a trailing `"\n"` before the `join('\n\n')`, so the entries
are separated by three newlines and the block ends in a newline. -/
theorem c8_context_block_counterexample :
    searchContext c8Results ≠ specContextBlock c8Results := by
  decide

/-- C8 (amended): the context block is the blank-line join of the spec's
entries each followed by a trailing newline; and the sources table has
exactly `N` rows, the `i`-th row carrying citation number `i + 1` and the
`i`-th result, in array order. -/
theorem c8_composer_numbering :
    (∀ rs : List SearchResult,
       searchContext rs =
         String.intercalate "\n\n"
           (listMapIdx (fun i r => specSourceEntry (i + 1) r ++ "\n") rs)) ∧
    (∀ rs : List SearchResult, (listMapIdx sourceRow rs).length = rs.length) ∧
    (∀ (rs : List SearchResult) (i : Nat) (h : i < rs.length)
       (h2 : i < (listMapIdx sourceRow rs).length),
       (listMapIdx sourceRow rs).get ⟨i, h2⟩ = specNumberedRow (i + 1) (rs.get ⟨i, h⟩)) := by
  refine ⟨?_, fun rs => listMapIdx_length sourceRow rs, ?_⟩
  · have hf : (fun (i : Nat) (r : SearchResult) =>
        "[Source " ++ toString (i + 1) ++ "]: " ++ r.title ++ "\n" ++ r.content ++
          "\nURL: " ++ r.url ++ "\n") =
        (fun (i : Nat) (r : SearchResult) => specSourceEntry (i + 1) r ++ "\n") := by
      funext i r
      simp [specSourceEntry, String.append_assoc]
    intro rs
    unfold searchContext
    rw [hf]
  · intro rs i h h2
    exact listMapIdx_get sourceRow rs i h h2

theorem c8_composer_numbering_witness :
    (0 : Nat) < c8Results.length ∧
      (listMapIdx sourceRow c8Results).get ⟨0, by decide⟩ =
        specNumberedRow 1 (c8Results.get ⟨0, by decide⟩) :=
  ⟨by decide, c8_composer_numbering.2.2 c8Results 0 (by decide) (by decide)⟩

/-! ## Claim C9 — the result normalizer (spec-modelled) -/

theorem rawStrField_ne_empty (r : Json) (k : String) (s : String)
    (h : rawStrField r k = some s) : s ≠ "" := by
  unfold rawStrField at h
  split at h
  · rename_i s0 heq0
    split at h
    · exact absurd h (by simp)
    · rename_i hne
      injection h with h2
      rw [← h2]
      simpa using hne
  · exact absurd h (by simp)

/-- C9 (counterexample): after normalization the snippet is not always
non-empty — `normalize([{}])` yields snippet `""` (the spec's own expected
output), contradicting the claim's "non-empty … snippet" invariant. -/
theorem c9_snippet_counterexample :
    ¬ (∀ r ∈ normalizeResults (Json.arrL [Json.objL []]), r.snippet ≠ "") := by
  decide

/-- C9 (amended): `normalize([]) = []`; `normalize([{}])` yields the fully
defaulted record (with snippet `""`); non-array input yields the empty list;
every normalized record has non-empty title, content and url (snippet may be
empty); and a missing snippet defaults to the first 150 characters of the raw
record's content. -/
theorem c9_normalizer :
    normalizeResults (Json.arrL []) = [] ∧
    normalizeResults (Json.arrL [Json.objL []]) =
      [{ title := "Untitled Source", content := "No content available", url := "#",
         snippet := "", score := 0 }] ∧
    (∀ j : Json, (∀ l : JsonArr, j ≠ .arr l) → normalizeResults j = []) ∧
    (∀ (j : Json) (r : NormResult), r ∈ normalizeResults j →
       r.title ≠ "" ∧ r.content ≠ "" ∧ r.url ≠ "") ∧
    (∀ r : Json, r.getField "snippet" = none →
       (normalizeRecord r).snippet = jsSlice ((rawStrField r "content").getD "") 150) := by
  refine ⟨by decide, by decide, ?_, ?_, ?_⟩
  · intro j h
    cases j with
    | arr l => exact absurd rfl (h l)
    | null => rfl
    | bool b => rfl
    | num lex => rfl
    | str s => rfl
    | obj fs => rfl
  · intro j r hr
    cases j with
    | arr l =>
      rw [normalizeResults] at hr
      rcases List.mem_map.mp hr with ⟨x, _, rfl⟩
      refine ⟨?_, ?_, ?_⟩
      · show (rawStrField x "title").getD "Untitled Source" ≠ ""
        cases hc : rawStrField x "title" with
        | none => simp
        | some s => simpa using rawStrField_ne_empty x "title" s hc
      · show (rawStrField x "content").getD "No content available" ≠ ""
        cases hc : rawStrField x "content" with
        | none => simp
        | some s => simpa using rawStrField_ne_empty x "content" s hc
      · show (rawStrField x "url").getD "#" ≠ ""
        cases hc : rawStrField x "url" with
        | none => simp
        | some s => simpa using rawStrField_ne_empty x "url" s hc
    | null => exact absurd hr (by simp [normalizeResults])
    | bool b => exact absurd hr (by simp [normalizeResults])
    | num lex => exact absurd hr (by simp [normalizeResults])
    | str s => exact absurd hr (by simp [normalizeResults])
    | obj fs => exact absurd hr (by simp [normalizeResults])
  · intro r h
    have h2 : rawStrField r "snippet" = none := by
      unfold rawStrField
      rw [h]
    simp [normalizeRecord, h2]

theorem c9_normalizer_witness :
    (Json.objL [("content", Json.str "abc")]).getField "snippet" = none ∧
      (normalizeRecord (Json.objL [("content", Json.str "abc")])).snippet =
        jsSlice ((rawStrField (Json.objL [("content", Json.str "abc")]) "content").getD "") 150 :=
  ⟨rfl, c9_normalizer.2.2.2.2 (Json.objL [("content", Json.str "abc")]) rfl⟩
